import Mathlib

/-!
Verification of the AI Enrichment & Query Service of the `second-brain`
repository (`src/app/lib/ai-service.ts`), against its natural-language
specification.  The TypeScript source is shallowly embedded: JavaScript
strings become `List Char` / `String`, `Date.now()` timestamps become `Nat`
(milliseconds), the mutable module-level rate-limiter state becomes an
explicit `RLState` threaded through a step function, and fallible
operations return `Except` / `Option`.  The generative-model collaborator
(`model.generateContent`) is an external RPC; it is modelled as an explicit
outcome parameter (`ModelOutcome`), exactly as the spec stubs it.
-/

set_option maxRecDepth 4000

namespace SecondBrain

/-! ### JavaScript character/string primitives

The repository's inputs are ordinary text; we model the ASCII fragment of
JavaScript's character classes (`\s`, `\w`, `toLowerCase`), which is exact
on every input appearing in the claims. -/


/-- ASCII fragment of JavaScript's whitespace class `\s` (space, tab,
newline, carriage return, vertical tab, form feed). -/
def isJsWs (c : Char) : Bool :=
  c = ' ' || c = '\t' || c = '\n' || c = '\r' || c = Char.ofNat 11 || c = Char.ofNat 12

/-- JavaScript word character `\w` = `[A-Za-z0-9_]` (used by `\b` boundaries). -/
def isWordChar (c : Char) : Bool :=
  c.isAlpha || c.isDigit || c = '_'

/-- ASCII `toLowerCase` on a single character (code points 65-90 shift to
97-122). -/
def toLowerChar (c : Char) : Char :=
  if 65 ≤ c.toNat ∧ c.toNat ≤ 90 then Char.ofNat (c.toNat + 32) else c

/-- `String.prototype.toLowerCase` on a character list. -/
def lowerStr (l : List Char) : List Char := l.map toLowerChar

/-- Drop trailing JavaScript whitespace. -/
def dropTrailingWs (l : List Char) : List Char := (l.reverse.dropWhile isJsWs).reverse

/-- `String.prototype.trim`. -/
def trimJs (l : List Char) : List Char := dropTrailingWs (l.dropWhile isJsWs)

/-- `a.includes(b)`: substring containment test. -/
def containsSub (l sub : List Char) : Bool := l.tails.any (fun t => sub.isPrefixOf t)

/-! ### Rate Governor (`checkRateLimit` / `markQuotaExhausted`,
`src/app/lib/ai-service.ts` lines 34-67)

The module-level mutable state (`callTimestamps`, `quotaExhaustedUntil`)
becomes `RLState`; `Date.now()` becomes the explicit `now` argument.
Both rejection branches throw `AIQuotaError` in the source; the embedding
distinguishes them as `rejectedCooldown` (carrying the `waitSec` hint
interpolated into the error message) and `rejectedWindow`. -/


/-- Mutable module state of the rate limiter: `callTimestamps` and
`quotaExhaustedUntil` (initially `[]` and `0`). -/
structure RLState where
  callTimestamps : List Nat
  quotaExhaustedUntil : Nat
deriving Repr, DecidableEq

/-- Outcome of one `checkRateLimit()` call: normal return, or one of the
two `AIQuotaError` throws (cooldown carries the `waitSec` hint). -/
inductive RLResult where
  | admitted
  | rejectedCooldown (waitSec : Nat)
  | rejectedWindow
deriving Repr, DecidableEq

/-- `MAX_CALLS_PER_MINUTE` from the source. -/
def MAX_CALLS_PER_MINUTE : Nat := 10

/-- `QUOTA_COOLDOWN_MS` from the source. -/
def QUOTA_COOLDOWN_MS : Nat := 60000

/-- The `while (callTimestamps.length > 0 && callTimestamps[0] < oneMinuteAgo)
callTimestamps.shift()` loop: drop leading timestamps strictly below the
cutoff. -/
def pruneOld (cutoff : Nat) : List Nat → List Nat
  | [] => []
  | t :: rest => if t < cutoff then pruneOld cutoff rest else t :: rest

/-- `checkRateLimit()` (lines 39-63).  `Math.ceil((quotaExhaustedUntil - now)
/ 1000)` is `(quotaExhaustedUntil - now + 999) / 1000` in exact arithmetic
(the branch guarantees `now < quotaExhaustedUntil`).  `now - 60000` uses
truncated subtraction, which agrees with the JavaScript comparison
`t < now - 60000` for nonnegative timestamps. -/
def checkRateLimit (now : Nat) (s : RLState) : RLState × RLResult :=
  if now < s.quotaExhaustedUntil then
    (s, .rejectedCooldown ((s.quotaExhaustedUntil - now + 999) / 1000))
  else if MAX_CALLS_PER_MINUTE ≤ (pruneOld (now - 60000) s.callTimestamps).length then
    ({ s with callTimestamps := pruneOld (now - 60000) s.callTimestamps }, .rejectedWindow)
  else
    ({ s with callTimestamps := pruneOld (now - 60000) s.callTimestamps ++ [now] },
      .admitted)

/-- `markQuotaExhausted()` (lines 65-67). -/
def markQuotaExhausted (now : Nat) (s : RLState) : RLState :=
  { s with quotaExhaustedUntil := now + QUOTA_COOLDOWN_MS }

/-- One externally observable operation on the rate limiter. -/
inductive RLOp where
  | attempt (now : Nat)
  | exhaust (now : Nat)

/-- Apply one operation, keeping only the state. -/
def rlApply (s : RLState) : RLOp → RLState
  | .attempt now => (checkRateLimit now s).1
  | .exhaust now => markQuotaExhausted now s

/-- Run a sequence of operations from a starting state. -/
def rlRun (ops : List RLOp) (s : RLState) : RLState := ops.foldl rlApply s

/-- Run a sequence of admission attempts, collecting each attempt's result. -/
def runAdmissions : List Nat → RLState → RLState × List RLResult
  | [], s => (s, [])
  | t :: ts, s =>
    let step := checkRateLimit t s
    let rest := runAdmissions ts step.1
    (rest.1, step.2 :: rest.2)

/-! ### Citation resolution (`queryBrainAI`, lines 287-299)

`text.match(/\[(\d+)\]/g)` finds every non-overlapping bracketed digit run
left to right; each is `parseInt`ed, mapped to a 0-based index by
subtracting 1, deduplicated through a `Set` (which preserves insertion
order), and filtered to `[0, items.length)`. -/


/-- `parseInt` on a digit run. -/
def digitsToNat (ds : List Char) : Nat :=
  ds.foldl (fun n c => n * 10 + (c.toNat - '0'.toNat)) 0

/-- Left-to-right scanner equivalent to the global regex `\[(\d+)\]`:
`none` = outside a bracket, `some ds` = inside a bracket having read the
digits `ds` (reversed).  On a failed bracket the scan resumes at the
failing character, exactly as the regex engine restarts after the `[`. -/
def scanCitations : List Char → Option (List Char) → List Nat
  | [], _ => []
  | c :: rest, none =>
    if c = '[' then scanCitations rest (some []) else scanCitations rest none
  | c :: rest, some ds =>
    if c.isDigit then scanCitations rest (some (c :: ds))
    else if c = ']' ∧ ds ≠ [] then digitsToNat ds.reverse :: scanCitations rest none
    else if c = '[' then scanCitations rest (some [])
    else scanCitations rest none

/-- JavaScript `[...new Set(l)]`: deduplicate keeping first occurrences in
order (`seen` accumulates values already emitted). -/
def dedupFirstAux (seen : List Int) : List Int → List Int
  | [] => []
  | x :: xs =>
    if x ∈ seen then dedupFirstAux seen xs else x :: dedupFirstAux (x :: seen) xs

/-- The `sourceIndices` computation of `queryBrainAI` (lines 289-296):
scan bracketed integers, subtract 1, deduplicate, keep indices inside
`[0, numItems)`. -/
def sourceIndices (text : String) (numItems : Nat) : List Int :=
  (dedupFirstAux [] ((scanCitations text.data none).map (fun k => (k : Int) - 1))).filter
    (fun i => decide (0 ≤ i) && decide (i < (numItems : Int)))

/-! ### Structured Response Extractor (`extractJSON`, lines 124-154)

`JSON.parse` is modelled by a standard JSON grammar parser over character
lists.  Numbers keep their source lexeme (no floating point is needed by
any claim); strings decode the standard escapes. -/


/-- JSON whitespace accepted by `JSON.parse`. -/
def isJsonWs (c : Char) : Bool := c = ' ' || c = '\t' || c = '\n' || c = '\r'

/-- Skip JSON whitespace. -/
def skipJsonWs (l : List Char) : List Char := l.dropWhile isJsonWs

/-- Backtick (code point 96). -/
def btick : Char := Char.ofNat 96

/-- Opening curly brace (code point 123). -/
def lbrace : Char := Char.ofNat 123

/-- Closing curly brace (code point 125). -/
def rbrace : Char := Char.ofNat 125

/-- Parsed JSON value. -/
inductive JsonValue where
  | null
  | bool (b : Bool)
  | num (lexeme : String)
  | str (s : String)
  | arr (elems : List JsonValue)
  | obj (fields : List (String × JsonValue))

/-- Hexadecimal digit test. -/
def isHexDig (c : Char) : Bool :=
  c.isDigit || ('a' ≤ c && c ≤ 'f') || ('A' ≤ c && c ≤ 'F')

/-- Value of a hexadecimal digit. -/
def hexVal (c : Char) : Nat :=
  if c.isDigit then c.toNat - 48
  else if 'a' ≤ c ∧ c ≤ 'f' then c.toNat - 87
  else if 'A' ≤ c ∧ c ≤ 'F' then c.toNat - 55
  else 0

/-- Body of a JSON string after the opening quote: decoded text plus the
remainder after the closing quote.  Raw control characters are rejected;
`\uXXXX` decodes through `Char.ofNat`. -/
def parseStringBody (acc : List Char) : List Char → Option (String × List Char)
  | [] => none
  | c :: rest =>
    if c = '"' then some (String.mk acc.reverse, rest)
    else if c = '\\' then
      match rest with
      | [] => none
      | e :: rest' =>
        if e = '"' then parseStringBody ('"' :: acc) rest'
        else if e = '\\' then parseStringBody ('\\' :: acc) rest'
        else if e = '/' then parseStringBody ('/' :: acc) rest'
        else if e = 'b' then parseStringBody (Char.ofNat 8 :: acc) rest'
        else if e = 'f' then parseStringBody (Char.ofNat 12 :: acc) rest'
        else if e = 'n' then parseStringBody ('\n' :: acc) rest'
        else if e = 'r' then parseStringBody ('\r' :: acc) rest'
        else if e = 't' then parseStringBody ('\t' :: acc) rest'
        else if e = 'u' then
          match rest' with
          | h1 :: h2 :: h3 :: h4 :: rest2 =>
            if isHexDig h1 && isHexDig h2 && isHexDig h3 && isHexDig h4 then
              parseStringBody
                (Char.ofNat (hexVal h1 * 4096 + hexVal h2 * 256 + hexVal h3 * 16 + hexVal h4)
                  :: acc) rest2
            else none
          | _ => none
        else none
    else if c.toNat < 32 then none
    else parseStringBody (c :: acc) rest

/-- Optional fraction part `.digits` of a JSON number (absent when
ill-formed, in which case the stray characters make the enclosing parse
fail, matching `JSON.parse`). -/
def parseFrac (s : List Char) : List Char × List Char :=
  match s with
  | c :: r =>
    if c = '.' then
      match r.takeWhile Char.isDigit with
      | [] => ([], s)
      | ds => (c :: ds, r.dropWhile Char.isDigit)
    else ([], s)
  | [] => ([], [])

/-- Optional exponent part `[eE][+-]?digits` of a JSON number. -/
def parseExp (s : List Char) : List Char × List Char :=
  match s with
  | c :: r =>
    if c = 'e' ∨ c = 'E' then
      let sg := match r with
        | d :: r' => if d = '+' ∨ d = '-' then ([d], r') else (([] : List Char), r)
        | [] => ([], r)
      match sg.2.takeWhile Char.isDigit with
      | [] => ([], s)
      | ds => (c :: sg.1 ++ ds, sg.2.dropWhile Char.isDigit)
    else ([], s)
  | [] => ([], [])

/-- Lexeme of a JSON number at the head of the input: optional minus,
integer part without leading zeros, optional fraction and exponent. -/
def parseNumberLex (s : List Char) : Option (List Char × List Char) :=
  let sign := match s with
    | c :: r => if c = '-' then (([c] : List Char), r) else ([], s)
    | [] => ([], s)
  match sign.2 with
  | [] => none
  | c :: r =>
    if c = '0' then
      let fe1 := parseFrac r
      let fe2 := parseExp fe1.2
      some (sign.1 ++ [c] ++ fe1.1 ++ fe2.1, fe2.2)
    else if c.isDigit then
      let ds := r.takeWhile Char.isDigit
      let r1 := r.dropWhile Char.isDigit
      let fe1 := parseFrac r1
      let fe2 := parseExp fe1.2
      some (sign.1 ++ c :: ds ++ fe1.1 ++ fe2.1, fe2.2)
    else none

mutual

/-- `JSON.parse` value parser, fuel-indexed (`2 * length + 2` fuel is
always sufficient: every two recursion levels consume a character). -/
def parseJsonValue : Nat → List Char → Option (JsonValue × List Char)
  | 0, _ => none
  | Nat.succ fuel, s =>
    match skipJsonWs s with
    | [] => none
    | c :: rest =>
      if c = 'n' then
        match rest with
        | 'u' :: 'l' :: 'l' :: r => some (.null, r)
        | _ => none
      else if c = 't' then
        match rest with
        | 'r' :: 'u' :: 'e' :: r => some (.bool true, r)
        | _ => none
      else if c = 'f' then
        match rest with
        | 'a' :: 'l' :: 's' :: 'e' :: r => some (.bool false, r)
        | _ => none
      else if c = '"' then
        match parseStringBody [] rest with
        | some (str, r) => some (.str str, r)
        | none => none
      else if c = '[' then
        parseJsonElems fuel [] (skipJsonWs rest)
      else if c = lbrace then
        parseJsonMembers fuel [] (skipJsonWs rest)
      else if c = '-' ∨ c.isDigit then
        match parseNumberLex (c :: rest) with
        | some (lex, r) => some (.num (String.mk lex), r)
        | none => none
      else none

/-- Array elements after `[` (whitespace skipped); `]` may close only the
empty array here — a `]` right after a comma is a rejected trailing
comma. -/
def parseJsonElems : Nat → List JsonValue → List Char → Option (JsonValue × List Char)
  | 0, _, _ => none
  | Nat.succ fuel, acc, s =>
    match s with
    | [] => none
    | c :: rest =>
      if (c == ']') && acc.isEmpty then some (.arr [], rest)
      else
        match parseJsonValue fuel s with
        | some (v, r) =>
          match skipJsonWs r with
          | c2 :: r2 =>
            if c2 = ',' then parseJsonElems fuel (v :: acc) (skipJsonWs r2)
            else if c2 = ']' then some (.arr (v :: acc).reverse, r2)
            else none
          | [] => none
        | none => none

/-- Object members after the opening brace (whitespace skipped); the
closing brace may close only the empty object here. -/
def parseJsonMembers : Nat → List (String × JsonValue) → List Char →
    Option (JsonValue × List Char)
  | 0, _, _ => none
  | Nat.succ fuel, acc, s =>
    match s with
    | [] => none
    | c :: rest =>
      if (c == rbrace) && acc.isEmpty then some (.obj [], rest)
      else if c = '"' then
        match parseStringBody [] rest with
        | some (key, r1) =>
          match skipJsonWs r1 with
          | c2 :: r2 =>
            if c2 = ':' then
              match parseJsonValue fuel r2 with
              | some (v, r3) =>
                match skipJsonWs r3 with
                | c3 :: r4 =>
                  if c3 = ',' then parseJsonMembers fuel ((key, v) :: acc) (skipJsonWs r4)
                  else if c3 = rbrace then some (.obj ((key, v) :: acc).reverse, r4)
                  else none
                | [] => none
              | none => none
            else none
          | [] => none
        | none => none
      else none

end

/-- `JSON.parse`: a full value with only whitespace around it. -/
def jsonParse (l : List Char) : Option JsonValue :=
  match parseJsonValue (2 * l.length + 2) l with
  | some (v, rest) => if (skipJsonWs rest).isEmpty then some v else none
  | none => none

/-- Remainder after the first triple-backtick fence. -/
def fenceTail : List Char → Option (List Char)
  | c1 :: c2 :: c3 :: rest =>
    if c1 = btick ∧ c2 = btick ∧ c3 = btick then some rest
    else fenceTail (c2 :: c3 :: rest)
  | _ => none

/-- Characters before the first triple-backtick fence (`none` when no
fence follows). -/
def splitAtFence : List Char → Option (List Char)
  | c1 :: c2 :: c3 :: rest =>
    if c1 = btick ∧ c2 = btick ∧ c3 = btick then some []
    else (splitAtFence (c2 :: c3 :: rest)).map (fun l => c1 :: l)
  | _ => none

/-- The optional `json` tag after the opening fence (`(?:json)?`). -/
def stripJsonTag : List Char → List Char
  | 'j' :: 's' :: 'o' :: 'n' :: rest => rest
  | s => s

/-- Capture group of the lazy fenced-block regex
(triple backtick, optional `json` tag, `\s*\n?`, lazy interior, `\n?\s*`,
triple backtick): after the first fence and the tag, the greedy `\s*\n?`
absorbs the leading whitespace; the lazy interior ends at the first
closing fence, with the whitespace run immediately before that fence
matched by `\n?\s*` (so it is excluded from the capture). -/
def fenceCapture (s : List Char) : Option (List Char) :=
  match fenceTail s with
  | none => none
  | some r =>
    match splitAtFence ((stripJsonTag r).dropWhile isJsWs) with
    | none => none
    | some pre => some (dropTrailingWs pre)

/-- Tier 3 slice: `text.indexOf("{")` through `text.lastIndexOf("}")`
inclusive, provided the last `}` lies strictly after the first `{`. -/
def braceSlice (s : List Char) : Option (List Char) :=
  match s.findIdx? (· == lbrace), s.reverse.findIdx? (· == rbrace) with
  | some bs, some jr =>
    if bs < s.length - 1 - jr then
      some ((s.drop bs).take (s.length - 1 - jr + 1 - bs))
    else none
  | _, _ => none

/-- Error message of `extractJSON`'s final `throw`: a ≤200-character
excerpt of the offending text. -/
def extractErr (text : String) : String :=
  "Could not extract JSON from: " ++ String.mk (text.data.take 200)

/-- Third tier of `extractJSON`. -/
def extractTier3 (text : String) : Except String JsonValue :=
  match braceSlice text.data with
  | some sl =>
    match jsonParse sl with
    | some v => .ok v
    | none => .error (extractErr text)
  | none => .error (extractErr text)

/-- `extractJSON` (lines 124-154): direct parse, then the trimmed interior
of a fenced block, then the first-`{`-to-last-`}` slice; otherwise throw
with a truncated excerpt. -/
def extractJSON (text : String) : Except String JsonValue :=
  match jsonParse text.data with
  | some v => .ok v
  | none =>
    match fenceCapture text.data with
    | some cap =>
      match jsonParse (trimJs cap) with
      | some v => .ok v
      | none => extractTier3 text
    | none => extractTier3 text

/-! ### Offline Heuristics Engine (lines 306-385 and 645-734)

Every heuristic regex in the source is an alternation of `\b`-delimited
alternatives made of literal characters and the optional wildcard `.?`
(every alternative starts and ends with a word character).  We model that
exact shape. -/


/-- Atom of a keyword alternative: a literal character or `.?` (one
optional character other than a line terminator). -/
inductive PatAtom where
  | lit (c : Char)
  | anyOpt
deriving Repr, DecidableEq

/-- A keyword alternative. -/
abbrev Pat := List PatAtom

/-- Alternative consisting only of literal characters. -/
def litPat (s : String) : Pat := s.data.map PatAtom.lit

/-- Alternative `a.?b` (e.g. `web.?dev`, `machine.?learning`). -/
def optPat (a b : String) : Pat := litPat a ++ PatAtom.anyOpt :: litPat b

/-- All remainders after matching an alternative at the head of the input
(`.?` branches between consuming one non-newline character or nothing). -/
def patRemainders : Pat → List Char → List (List Char)
  | [], s => [s]
  | .lit _ :: _, [] => []
  | .lit c :: p, x :: s => if x = c then patRemainders p s else []
  | .anyOpt :: p, s =>
    (match s with
     | x :: s' => if x = '\n' ∨ x = '\r' then [] else patRemainders p s'
     | [] => []) ++ patRemainders p s

/-- An alternative matches at the head of `s` with a word boundary after
it (every alternative ends in a word character, so the boundary holds iff
the next character is not a word character). -/
def patMatchesAt (p : Pat) (s : List Char) : Bool :=
  (patRemainders p s).any fun rem =>
    match rem with
    | [] => true
    | c :: _ => !isWordChar c

/-- Scan for a match position whose preceding character is not a word
character (every alternative begins with a word character, so this is the
leading `\b`). -/
def testPatsFrom (alts : List Pat) : Bool → List Char → Bool
  | _, [] => false
  | prevNonWord, c :: rest =>
    (prevNonWord && alts.any fun p => patMatchesAt p (c :: rest))
    || testPatsFrom alts (!isWordChar c) rest

/-- `regex.test(text)` for one of the heuristic keyword alternations. -/
def testPats (alts : List Pat) (s : List Char) : Bool := testPatsFrom alts true s

/-- The `tagPatterns` table (lines 340-357), in source order. -/
def tagPatterns : List (String × List Pat) := [
  ("web-development", [litPat "html", litPat "css", litPat "javascript", litPat "react",
    litPat "nextjs", litPat "vue", litPat "angular", litPat "frontend", optPat "web" "dev"]),
  ("machine-learning", [litPat "ml", optPat "machine" "learning", litPat "neural",
    optPat "deep" "learning", litPat "model", litPat "training", litPat "dataset"]),
  ("artificial-intelligence", [litPat "ai", optPat "artificial" "intelligence",
    litPat "gpt", litPat "llm", litPat "chatbot", litPat "nlp"]),
  ("programming", [litPat "code", litPat "coding", litPat "programming", litPat "developer",
    litPat "software", litPat "algorithm", litPat "function"]),
  ("api-design", [litPat "api", litPat "rest", litPat "graphql", litPat "endpoint",
    litPat "http", litPat "request", litPat "response"]),
  ("database", [litPat "database", litPat "sql", litPat "nosql", litPat "postgres",
    litPat "mongo", litPat "supabase", litPat "firebase"]),
  ("devops", [litPat "devops", litPat "docker", litPat "kubernetes", optPat "ci" "cd",
    litPat "deploy", litPat "aws", litPat "azure", litPat "cloud"]),
  ("mobile-dev", [litPat "mobile", litPat "ios", litPat "android", optPat "react" "native",
    litPat "flutter", litPat "swift", litPat "kotlin"]),
  ("productivity", [litPat "productivity", litPat "workflow", litPat "automat",
    litPat "efficiency", litPat "tool", litPat "process"]),
  ("finance", [litPat "finance", litPat "invest", litPat "money", litPat "budget",
    litPat "revenue", litPat "profit", litPat "stock", litPat "crypto"]),
  ("health-wellness", [litPat "health", litPat "fitness", litPat "exercise",
    litPat "nutrition", litPat "sleep", litPat "meditat", litPat "wellness"]),
  ("writing", [litPat "writing", litPat "blog", litPat "article", optPat "content" "creation",
    litPat "copywriting", litPat "storytell"]),
  ("design", [litPat "design", litPat "ux", litPat "ui", litPat "figma", litPat "prototype",
    litPat "wireframe", litPat "visual"]),
  ("project-management", [litPat "project", litPat "sprint", litPat "agile", litPat "kanban",
    litPat "scrum", litPat "milestone", litPat "deadline"]),
  ("startup", [litPat "startup", litPat "entrepreneur", litPat "mvp", litPat "founder",
    litPat "venture", litPat "pitch", litPat "growth"]),
  ("marketing", [litPat "marketing", litPat "seo", optPat "social" "media", litPat "brand",
    litPat "campaign", litPat "analytics", optPat "growth" "hack"])]

/-- The category pattern table (lines 371-378), in source priority order
(the inner `ai\b` is the literal `ai`: its boundary coincides with the
group's closing `\b`). -/
def categoryPatterns : List (String × List Pat) := [
  ("Technology", [litPat "code", litPat "programming", litPat "api", litPat "javascript",
    litPat "typescript", litPat "python", litPat "react", litPat "database",
    litPat "software", litPat "deploy", litPat "server", litPat "ai",
    optPat "machine" "learning", litPat "algorithm", litPat "github", litPat "docker",
    litPat "cloud", litPat "devops", litPat "frontend", litPat "backend", litPat "css",
    litPat "html", litPat "framework"]),
  ("Business", [litPat "revenue", litPat "startup", litPat "market", litPat "strategy",
    litPat "customer", litPat "growth", litPat "sales", litPat "invest", litPat "profit",
    litPat "business", litPat "entrepreneur", optPat "product" "market", litPat "kpi",
    litPat "roi", litPat "branding", litPat "competitor"]),
  ("Personal", [litPat "health", litPat "fitness", litPat "meditation", litPat "habit",
    litPat "journal", litPat "mindful", litPat "wellness", litPat "exercise",
    litPat "sleep", litPat "diet", optPat "goal" "setting", optPat "self" "improve",
    litPat "gratitude", optPat "mental" "health"]),
  ("Creative", [litPat "design", litPat "illustration", litPat "photography",
    litPat "video", litPat "music", litPat "art", litPat "creative", litPat "typography",
    litPat "sketch", litPat "animation", litPat "writing", litPat "storytell",
    litPat "branding", litPat "ux", litPat "ui"]),
  ("Learning", [litPat "course", litPat "tutorial", litPat "textbook", litPat "lecture",
    litPat "syllabus", litPat "exam", litPat "study", litPat "curriculum",
    litPat "academic", litPat "university", litPat "certificate", litPat "mooc",
    litPat "edx", litPat "coursera", litPat "udemy"]),
  ("Work", [litPat "meeting", litPat "deadline", litPat "sprint", litPat "standup",
    optPat "project" "manage", litPat "jira", litPat "task", litPat "kanban",
    litPat "scrum", litPat "agile", litPat "collaboration", litPat "stakeholder",
    litPat "milestone", litPat "okr"])]

/-- The importance-keyword alternation of the scored summariser (line 659;
the `i` flag is modelled by testing the lowercased sentence). -/
def importantPats : List Pat := [litPat "key", litPat "important", litPat "main",
  litPat "essential", litPat "critical", litPat "conclusion", litPat "result",
  litPat "therefore", litPat "however", litPat "significantly", litPat "notably",
  litPat "ultimately", litPat "takeaway", litPat "recommend", litPat "suggest",
  litPat "highlight", litPat "summary"]

/-- Category names of `DEFAULT_TAG_CATEGORIES` (types.ts): the Closed
Category Set. -/
def ALL_CATEGORIES : List String :=
  ["Technology", "Business", "Personal", "Creative", "Learning", "Work"]

/-- One iteration of the tag-collection loop: push the tag name when its
pattern matches. -/
def collectStep (text : List Char) (tag : String) (pats : List Pat)
    (acc : List String) : List String :=
  if testPats pats text then acc ++ [tag] else acc

/-- The tag-collection loop of `inferTagsFromContent`: test each pattern
in order, pushing its tag name on a match, stopping once four tags are
collected. -/
def collectTags (text : List Char) : List (String × List Pat) → List String → List String
  | [], acc => acc
  | (tag, pats) :: rest, acc =>
    if 4 ≤ (collectStep text tag pats acc).length then collectStep text tag pats acc
    else collectTags text rest (collectStep text tag pats acc)

/-- `inferTagsFromContent` (lines 336-365). -/
def inferTagsFromContent (title content : String) : List String :=
  if (collectTags (lowerStr (title.data ++ ' ' :: content.data)) tagPatterns []).isEmpty
  then ["general"]
  else collectTags (lowerStr (title.data ++ ' ' :: content.data)) tagPatterns []

/-- `inferCategoryFromContent` (lines 368-385): first matching category
pattern, defaulting to Technology. -/
def inferCategoryFromContent (title content : String) : String :=
  match categoryPatterns.find?
      (fun p => testPats p.2 (lowerStr (title.data ++ ' ' :: content.data))) with
  | some p => p.1
  | none => "Technology"

/-! #### Sentence splitting and the two offline summarisers -/


/-- Delimiter class of `split(/[.!?]+/)`. -/
def isSentenceDelim (c : Char) : Bool := c = '.' || c = '!' || c = '?'

mutual

/-- JavaScript `split` on a character-class-run regex: accumulate the
current field until a delimiter. -/
def splitRunsAux (p : Char → Bool) (cur : List Char) : List Char → List (List Char)
  | [] => [cur.reverse]
  | c :: rest =>
    if p c then cur.reverse :: splitRunsSkip p rest else splitRunsAux p (c :: cur) rest

/-- Skip the rest of a delimiter run, then resume field accumulation. -/
def splitRunsSkip (p : Char → Bool) : List Char → List (List Char)
  | [] => [[]]
  | c :: rest => if p c then splitRunsSkip p rest else splitRunsAux p [c] rest

end

/-- JavaScript `s.split(/X+/)` for the character class `p`. -/
def splitRuns (p : Char → Bool) (l : List Char) : List (List Char) := splitRunsAux p [] l

/-- `content.replace(/\n+/g, " ")`: each newline run becomes one space. -/
def collapseNewlinesAux : Bool → List Char → List Char
  | _, [] => []
  | inRun, c :: rest =>
    if c = '\n' then
      if inRun then collapseNewlinesAux true rest
      else ' ' :: collapseNewlinesAux true rest
    else c :: collapseNewlinesAux false rest

/-- `content.replace(/\n+/g, " ")`. -/
def collapseNewlines (l : List Char) : List Char := collapseNewlinesAux false l

/-- `clean.replace(/\s\S*$/, "")`: remove the last whitespace character
together with the non-whitespace run following it to the end (no change
when the text has no whitespace). -/
def dropLastWordRun (l : List Char) : List Char :=
  match l.reverse.dropWhile (fun c => !isJsWs c) with
  | _ :: rest => rest.reverse
  | [] => l

/-- Candidate sentences shared by both summarisers (lines 308-312 and
647-651): newline runs to spaces, split on `.!?` runs, trim, keep lengths
strictly between 20 and 200. -/
def candidateSentences (content : String) : List (List Char) :=
  ((splitRuns isSentenceDelim (collapseNewlines content.data)).map trimJs).filter
    (fun s => 20 < s.length && s.length < 200)

/-- The shared last-resort truncation (lines 328-332 and 653-655):
cleaned content cut to 150 characters at a word boundary plus an
ellipsis; the title when even the cleaned content is empty. -/
def truncateSummary (title content : String) : String :=
  if 150 < (trimJs (collapseNewlines content.data)).length then
    String.mk (dropLastWordRun ((trimJs (collapseNewlines content.data)).take 150)) ++ "..."
  else if (trimJs (collapseNewlines content.data)).isEmpty then title
  else String.mk (trimJs (collapseNewlines content.data))

/-- `buildOfflineSummary` of the first revision (lines 306-333): first two
candidate sentences that do not start with the title's first 15 lowercased
characters, else the truncation fallback. -/
def buildOfflineSummaryV1 (title content : String) : String :=
  if 2 ≤ (candidateSentences content).length then
    if 2 ≤ ((candidateSentences content).filter
        (fun s => !((lowerStr title.data).take 15).isPrefixOf (lowerStr s))).length then
      String.mk (((candidateSentences content).filter
          (fun s => !((lowerStr title.data).take 15).isPrefixOf (lowerStr s))).headD [])
        ++ ". "
        ++ String.mk (((candidateSentences content).filter
          (fun s => !((lowerStr title.data).take 15).isPrefixOf (lowerStr s))).tail.headD [])
        ++ "."
    else if ((candidateSentences content).filter
        (fun s => !((lowerStr title.data).take 15).isPrefixOf (lowerStr s))).length = 1 then
      String.mk (((candidateSentences content).filter
          (fun s => !((lowerStr title.data).take 15).isPrefixOf (lowerStr s))).headD [])
        ++ "."
    else truncateSummary title content
  else truncateSummary title content

/-- Insert into a sorted list, before the first element `y` with
`le x y`. -/
def insertLE {α : Type} (le : α → α → Bool) (x : α) : List α → List α
  | [] => [x]
  | y :: ys => if le x y then x :: y :: ys else y :: insertLE le x ys

/-- Stable insertion sort: `sortLE le` puts `a` before `b` whenever
`le a b`, and keeps the original relative order of tied elements — the
guaranteed behaviour of `Array.prototype.sort` with a comparator (stable
since ES2019).  A structurally recursive implementation is used so that
concrete runs reduce inside the kernel. -/
def sortLE {α : Type} (le : α → α → Bool) : List α → List α
  | [] => []
  | x :: xs => insertLE le x (sortLE le xs)

/-- The comparator `(a, b) => b.score - a.score` of the scored
summariser, as the stable-sort order "a stays before b iff b's score is
at most a's" (descending by score, ties in original order). -/
def sortJs (l : List (List Char × Nat)) : List (List Char × Nat) :=
  sortLE (fun a b => decide (b.2 ≤ a.2)) l

/-- Title words used by the scored summariser (line 660): lowercased
title split on whitespace runs, keeping words longer than 3 characters. -/
def titleWords (title : String) : List (List Char) :=
  (splitRuns isJsWs (lowerStr title.data)).filter (fun w => 3 < w.length)

/-- The per-sentence score of the scored summariser (lines 662-675).  The
positional bonuses use `sentences.indexOf(s)` — the index of the FIRST
occurrence of the sentence text. -/
def scoreSentence (sentences : List (List Char)) (tws : List (List Char))
    (s : List Char) : Nat :=
  (if testPats importantPats (lowerStr s) then 3 else 0)
  + (tws.filter (fun w => containsSub (lowerStr s) w)).length
  + (if 0 < sentences.indexOf s then 1 else 0)
  + (if sentences.length ≤ 2 * (sentences.indexOf s) then 1 else 0)
  + (if 60 < s.length then 1 else 0)

/-- The scored candidate list of the scored summariser. -/
def scoredCandidates (title content : String) : List (List Char × Nat) :=
  (candidateSentences content).map
    (fun s => (s, scoreSentence (candidateSentences content) (titleWords title) s))

/-- `buildOfflineSummary` of the later revision (lines 645-682): score the
candidates, stable-sort descending by score (`Array.prototype.sort` is
stable), join the top two with `". "` and a trailing period. -/
def buildOfflineSummary (title content : String) : String :=
  if (candidateSentences content).isEmpty then truncateSummary title content
  else
    String.intercalate ". "
      (((sortJs (scoredCandidates title content)).take 2).map (fun x => String.mk x.1))
      ++ "."

/-- The scoring rule exactly as claim C6 words it, with the positional
bonuses taken from a supplied index `i`. -/
def claimScoreAt (sentences : List (List Char)) (tws : List (List Char))
    (i : Nat) (s : List Char) : Nat :=
  (if testPats importantPats (lowerStr s) then 3 else 0)
  + (tws.filter (fun w => containsSub (lowerStr s) w)).length
  + (if 0 < i then 1 else 0)
  + (if sentences.length ≤ 2 * i then 1 else 0)
  + (if 60 < s.length then 1 else 0)

/-- Claim C6 as stated: each candidate scored at its own position in the
candidate list. -/
def specSummaryPositional (title content : String) : String :=
  String.intercalate ". "
    ((((sortJs ((candidateSentences content).enum.map
        (fun p => (p.2, claimScoreAt (candidateSentences content) (titleWords title)
            p.1 p.2)))).take 2).map (fun x => String.mk x.1)))
    ++ "."

/-- Claim C6 as amended: each candidate scored at the index of its first
occurrence in the candidate list. -/
def specSummaryFirstOcc (title content : String) : String :=
  String.intercalate ". "
    ((((sortJs ((candidateSentences content).map
        (fun s => (s, claimScoreAt (candidateSentences content) (titleWords title)
            ((candidateSentences content).indexOf s) s)))).take 2).map (fun x => String.mk x.1)))
    ++ "."

/-! ### Metadata Enrichment Pipeline (`generateAIMetadata`)

The repository history holds two revisions of the pipeline with identical
tag and category validation and different summary validation; both are
embedded.  The model call plus extraction is the `ModelOutcome`
parameter: `failure` covers every thrown error (missing credentials,
rate-limit rejection, upstream failure, empty response, extraction
failure — all routed to the catch-all in the source). -/


/-- Structured record extracted from the model's JSON response. -/
structure ParsedMeta where
  summary : Option String
  tags : Option (List String)
  category : Option String

/-- The `AIMetadata` result record. -/
structure AIMetadata where
  summary : String
  tags : List String
  category : String
deriving Repr, DecidableEq

/-- Outcome of the model-call-plus-extraction step. -/
inductive ModelOutcome where
  | failure
  | success (parsed : ParsedMeta)

/-- `t.toLowerCase().replace(/\s+/g, "-")`: lowercase, each whitespace
run becoming one hyphen. -/
def hyphenateAux : Bool → List Char → List Char
  | _, [] => []
  | inRun, c :: rest =>
    if isJsWs c then
      if inRun then hyphenateAux true rest else '-' :: hyphenateAux true rest
    else toLowerChar c :: hyphenateAux false rest

/-- Normalisation applied to each model-produced tag. -/
def jsTagNormalize (s : String) : String := String.mk (hyphenateAux false s.data)

/-- The generic-tag blacklist (lines 227 / 606). -/
def TAG_BLACKLIST : List String :=
  ["idea", "content", "note", "learning", "information", "untagged"]

/-- Tag validation shared by both revisions: keep non-empty strings,
normalise, drop blacklisted tags, cap at 5; when nothing remains fall
back wholesale to the heuristic tags. -/
def validateTags (title content : String) (parsedTags : Option (List String)) : List String :=
  match parsedTags with
  | some ts =>
    if ((((ts.filter (fun t => 0 < t.length)).map jsTagNormalize).filter
        (fun t => !TAG_BLACKLIST.contains t)).take 5).isEmpty
    then inferTagsFromContent title content
    else (((ts.filter (fun t => 0 < t.length)).map jsTagNormalize).filter
        (fun t => !TAG_BLACKLIST.contains t)).take 5
  | none => inferTagsFromContent title content

/-- Category validation shared by both revisions: case-insensitive exact
match against the Closed Category Set, else heuristic inference (an empty
category string is falsy and skips the match). -/
def validateCategory (title content : String) (parsedCategory : Option String) : String :=
  match parsedCategory with
  | some pc =>
    if pc.isEmpty then inferCategoryFromContent title content
    else
      match ALL_CATEGORIES.find? (fun c => lowerStr c.data == lowerStr pc.data) with
      | some m => m
      | none => inferCategoryFromContent title content
  | none => inferCategoryFromContent title content

/-- Summary validation of the first revision (lines 211-219): reject a
summary shorter than 15 characters, or echoing the title's first 15
lowercased characters, or echoing the content prefix; the replacement is
the templated fallback sentence. -/
def validateSummaryV1 (title content : String) (parsedSummary : Option String) : String :=
  if (parsedSummary.getD "").length < 15
      ∨ ((lowerStr title.data).take 15).isPrefixOf (lowerStr (parsedSummary.getD "").data)
      ∨ trimJs (parsedSummary.getD "").data
          == trimJs (content.data.take (parsedSummary.getD "").length)
  then
    "This note discusses " ++ String.mk (lowerStr title.data) ++ ". "
      ++ String.mk (trimJs ((content.data.take 100).map
          (fun c => if c = '\n' then ' ' else c)))
      ++ "..."
  else parsedSummary.getD ""

/-- `generateAIMetadata`, first revision (lines 163-259). -/
def generateAIMetadata (title content : String) : ModelOutcome → AIMetadata
  | .failure =>
    { summary := buildOfflineSummaryV1 title content
      tags := inferTagsFromContent title content
      category := inferCategoryFromContent title content }
  | .success parsed =>
    { summary := validateSummaryV1 title content parsed.summary
      tags := validateTags title content parsed.tags
      category := validateCategory title content parsed.category }

/-- `generateAIMetadata`, later revision (lines 542-638): identical but
for the summary check (lines 594-599), which replaces only summaries
shorter than 10 characters, using the scored offline summary. -/
def generateAIMetadataV2 (title content : String) : ModelOutcome → AIMetadata
  | .failure =>
    { summary := buildOfflineSummary title content
      tags := inferTagsFromContent title content
      category := inferCategoryFromContent title content }
  | .success parsed =>
    { summary :=
        if (parsed.summary.getD "").length < 10 then buildOfflineSummary title content
        else parsed.summary.getD ""
      tags := validateTags title content parsed.tags
      category := validateCategory title content parsed.category }

/-! ### Conversational Query Engine context builder (`queryBrainAI`,
lines 270-276) -/


/-- Saved-item fields used by the query engine (`BrainItem`, types.ts). -/
structure BrainItem where
  title : String
  type : String
  content : String
  ai_summary : Option String
deriving Repr, DecidableEq

/-- `item.content || item.ai_summary || ""` (truthiness on strings and
null). -/
def itemBody (it : BrainItem) : String :=
  if it.content.length ≠ 0 then it.content
  else match it.ai_summary with
    | some s => if s.length ≠ 0 then s else ""
    | none => ""

/-- One context entry: `[i+1] "title" (type): ` plus at most 200
characters of the body. -/
def contextLine (i : Nat) (it : BrainItem) : String :=
  "[" ++ toString (i + 1) ++ "] \"" ++ it.title ++ "\" (" ++ it.type ++ "): "
    ++ String.mk ((itemBody it).data.take 200)

/-- The context of `queryBrainAI`: entries for at most the first 25 items,
joined with newlines. -/
def buildContext (items : List BrainItem) : String :=
  String.intercalate "\n" ((items.take 25).enum.map (fun p => contextLine p.1 p.2))

/-- Concrete item for the C8 witness. -/
def sampleItem : BrainItem := ⟨"t", "note", "c", none⟩

/-- Concrete content for the C6 counterexample: its first and third
candidate sentences are the same text. -/
def sampleScoredContent : String :=
  "the quick brown fox jumped high. a lazy dog sat under a shady tree. the quick brown fox jumped high."

/-! ## Theorems -/

/-! #### Rate-governor lemmas -/


theorem pruneOld_length_le (cutoff : Nat) (l : List Nat) :
    (pruneOld cutoff l).length ≤ l.length := by
  induction l with
  | nil => simp [pruneOld]
  | cons t rest ih =>
    simp only [pruneOld]
    split
    · exact Nat.le_succ_of_le ih
    · simp

theorem pruneOld_suffix (cutoff : Nat) (l : List Nat) :
    (pruneOld cutoff l) <:+ l := by
  induction l with
  | nil => simp [pruneOld]
  | cons t rest ih =>
    simp only [pruneOld]
    split
    · exact ih.trans (List.suffix_cons t rest)
    · exact List.suffix_refl _

theorem pruneOld_of_none_lt (cutoff : Nat) (l : List Nat)
    (h : ∀ a ∈ l, ¬ a < cutoff) : pruneOld cutoff l = l := by
  induction l with
  | nil => rfl
  | cons t rest ih =>
    simp only [pruneOld]
    rw [if_neg (h t (by simp))]

theorem checkRateLimit_admit (now : Nat) (s : RLState)
    (hcool : s.quotaExhaustedUntil ≤ now)
    (hkeep : ∀ a ∈ s.callTimestamps, ¬ a < now - 60000)
    (hroom : s.callTimestamps.length < MAX_CALLS_PER_MINUTE) :
    checkRateLimit now s =
      ({ s with callTimestamps := s.callTimestamps ++ [now] }, .admitted) := by
  unfold checkRateLimit
  rw [if_neg (Nat.not_lt.mpr hcool)]
  simp only [pruneOld_of_none_lt _ _ hkeep]
  rw [if_neg (Nat.not_le.mpr hroom)]

theorem runAdmissions_admits (ts : List Nat) : ∀ (acc : List Nat) (d : Nat),
    acc.length + ts.length ≤ MAX_CALLS_PER_MINUTE →
    (∀ a ∈ acc, ∀ b ∈ ts, b ≤ a + 60000) →
    List.Pairwise (fun a b => b ≤ a + 60000) ts →
    (∀ b ∈ ts, d ≤ b) →
    runAdmissions ts ⟨acc, d⟩ =
      (⟨acc ++ ts, d⟩, List.replicate ts.length .admitted) := by
  induction ts with
  | nil => intro acc d _ _ _ _; simp [runAdmissions]
  | cons t ts ih =>
    intro acc d hlen hkeep hpair hd
    have hstep : checkRateLimit t ⟨acc, d⟩ =
        ({ callTimestamps := acc ++ [t], quotaExhaustedUntil := d }, .admitted) := by
      apply checkRateLimit_admit
      · exact hd t (by simp)
      · intro a ha
        have := hkeep a ha t (by simp)
        omega
      · show acc.length < MAX_CALLS_PER_MINUTE
        simp only [List.length_cons] at hlen
        omega
    have htail : runAdmissions ts ⟨acc ++ [t], d⟩ =
        (⟨(acc ++ [t]) ++ ts, d⟩, List.replicate ts.length .admitted) := by
      apply ih
      · simp only [List.length_append, List.length_cons, List.length_nil,
          List.length_singleton] at hlen ⊢
        omega
      · intro a ha b hb
        rcases List.mem_append.mp ha with h | h
        · exact hkeep a h b (by simp [hb])
        · have : a = t := by simpa using h
          subst this
          exact (List.pairwise_cons.mp hpair).1 b hb
      · exact (List.pairwise_cons.mp hpair).2
      · intro b hb
        exact hd b (by simp [hb])
    simp only [runAdmissions, hstep, htail, List.length_cons, List.replicate_succ]
    simp [List.append_assoc]

/-- Claim C2: with no active cooldown, ten admission attempts inside one
60-second window from an empty window are all admitted (each recording its
timestamp), an 11th attempt inside the window is rejected with a
QuotaError (`rejectedWindow`), and an attempt strictly more than 60
seconds after the first recorded call prunes that first timestamp and is
admitted again. -/
theorem rateGovernor_window_C2
    (t0 d t11 tLater : Nat) (rest : List Nat)
    (hlen : rest.length = 9)
    (hsort : List.Pairwise (· ≤ ·) (t0 :: rest))
    (hwin : ∀ b ∈ t0 :: rest, b ≤ t0 + 60000)
    (hd : ∀ b ∈ t0 :: rest, d ≤ b)
    (h11d : d ≤ t11) (h11 : t11 ≤ t0 + 60000)
    (hld : d ≤ tLater) (hlate : t0 + 60000 < tLater) :
    runAdmissions (t0 :: rest) ⟨[], d⟩ =
        (⟨t0 :: rest, d⟩, List.replicate 10 .admitted)
    ∧ checkRateLimit t11 ⟨t0 :: rest, d⟩ = (⟨t0 :: rest, d⟩, .rejectedWindow)
    ∧ checkRateLimit tLater ⟨t0 :: rest, d⟩ =
        (⟨pruneOld (tLater - 60000) rest ++ [tLater], d⟩, .admitted) := by
  have hhead : ∀ a ∈ t0 :: rest, t0 ≤ a := by
    intro a ha
    rcases List.mem_cons.mp ha with h | h
    · omega
    · exact (List.pairwise_cons.mp hsort).1 a h
  refine ⟨?_, ?_, ?_⟩
  · have := runAdmissions_admits (t0 :: rest) [] d
      (by simp [hlen, MAX_CALLS_PER_MINUTE])
      (by intro a ha; simp at ha)
      (hsort.imp_of_mem (fun {a b} ha hb _ =>
        le_trans (hwin b hb) (Nat.add_le_add_right (hhead a ha) 60000)))
      hd
    simpa [hlen] using this
  · unfold checkRateLimit
    rw [if_neg (show ¬ t11 < (⟨t0 :: rest, d⟩ : RLState).quotaExhaustedUntil from by
      show ¬ t11 < d
      omega)]
    have hpr : pruneOld (t11 - 60000) (t0 :: rest) = t0 :: rest := by
      apply pruneOld_of_none_lt
      intro a ha
      have := hhead a ha
      omega
    simp only [hpr]
    rw [if_pos (by simp [hlen, MAX_CALLS_PER_MINUTE])]
  · unfold checkRateLimit
    rw [if_neg (show ¬ tLater < (⟨t0 :: rest, d⟩ : RLState).quotaExhaustedUntil from by
      show ¬ tLater < d
      omega)]
    have hpr : pruneOld (tLater - 60000) (t0 :: rest) = pruneOld (tLater - 60000) rest := by
      simp only [pruneOld]
      rw [if_pos (by omega)]
    simp only [hpr]
    rw [if_neg (by
      have := pruneOld_length_le (tLater - 60000) rest
      simp only [MAX_CALLS_PER_MINUTE]
      omega)]

/-- Claim C2 witness: ten calls at time 0, the 11th at 60000 (still inside
the window of the first call), and a later call at 60001. -/
theorem rateGovernor_window_C2_witness :
    runAdmissions (0 :: List.replicate 9 0) ⟨[], 0⟩ =
        (⟨0 :: List.replicate 9 0, 0⟩, List.replicate 10 .admitted)
    ∧ checkRateLimit 60000 ⟨0 :: List.replicate 9 0, 0⟩ =
        (⟨0 :: List.replicate 9 0, 0⟩, .rejectedWindow)
    ∧ checkRateLimit 60001 ⟨0 :: List.replicate 9 0, 0⟩ =
        (⟨pruneOld (60001 - 60000) (List.replicate 9 0) ++ [60001], 0⟩, .admitted) :=
  rateGovernor_window_C2 0 0 60000 60001 (List.replicate 9 0)
    (by decide) (by decide) (by decide) (by decide)
    (by decide) (by decide) (by decide) (by decide)

/-- Claim C3 (amended): after `markQuotaExhausted` at time `t0`, every
attempt at `t < t0 + 60000` is rejected with a QuotaError carrying
`waitSec = ceil((deadline - t) / 1000)` regardless of window occupancy
(the state is arbitrary); the returned hint is the exact ceiling
(characterised by `deadline - t ≤ w * 1000 < deadline - t + 1000`); and for
two rejected attempts at `t1 ≤ t2` the hint at `t2` is at most the hint at
`t1`, strictly smaller whenever `t1 + 1000 ≤ t2` (the claim's strict
decrease fails for attempts within the same second — see the
counterexample). -/
theorem rateGovernor_cooldown_C3 (s : RLState) (t0 t1 t2 : Nat)
    (h1 : t1 < t0 + 60000) (h2 : t2 < t0 + 60000) (h12 : t1 ≤ t2) :
    (∀ t, t < t0 + 60000 →
      checkRateLimit t (markQuotaExhausted t0 s) =
        (markQuotaExhausted t0 s, .rejectedCooldown ((t0 + 60000 - t + 999) / 1000)))
    ∧ (∀ t, t < t0 + 60000 →
        t0 + 60000 - t ≤ ((t0 + 60000 - t + 999) / 1000) * 1000
        ∧ ((t0 + 60000 - t + 999) / 1000) * 1000 < t0 + 60000 - t + 1000)
    ∧ (t0 + 60000 - t2 + 999) / 1000 ≤ (t0 + 60000 - t1 + 999) / 1000
    ∧ (t1 + 1000 ≤ t2 →
        (t0 + 60000 - t2 + 999) / 1000 < (t0 + 60000 - t1 + 999) / 1000) := by
  refine ⟨?_, ?_, ?_, ?_⟩
  · intro t ht
    unfold checkRateLimit markQuotaExhausted QUOTA_COOLDOWN_MS
    rw [if_pos (by simpa using ht)]
  · intro t ht
    constructor <;> omega
  · omega
  · intro h
    omega

/-- Claim C3 witness: exhaustion marked at time 0, attempts at 500 and
1000; the attempt at 500 is rejected with hint 60, and the hint at 1000 is
strictly below the hint at 0. -/
theorem rateGovernor_cooldown_C3_witness :
    checkRateLimit 500 (markQuotaExhausted 0 ⟨[], 0⟩) =
      (markQuotaExhausted 0 ⟨[], 0⟩, .rejectedCooldown 60)
    ∧ (0 + 60000 - 1000 + 999) / 1000 < (0 + 60000 - 0 + 999) / 1000 :=
  ⟨(rateGovernor_cooldown_C3 ⟨[], 0⟩ 0 0 1000 (by decide) (by decide) (by decide)).1
      500 (by decide),
   (rateGovernor_cooldown_C3 ⟨[], 0⟩ 0 0 1000 (by decide) (by decide)
      (by decide)).2.2.2 (by decide)⟩

/-- Claim C3 counterexample: the wait-time hint is NOT strictly decreasing
for two attempts inside the same second of the cooldown: at times 0 and
500 (0 < 500, both before the deadline 60000) the hint is 60 both times. -/
theorem rateGovernor_cooldown_C3_counterexample :
    (0 : Nat) < 500 ∧ (500 : Nat) < 0 + 60000
    ∧ (checkRateLimit 0 (markQuotaExhausted 0 ⟨[], 0⟩)).2 = .rejectedCooldown 60
    ∧ (checkRateLimit 500 (markQuotaExhausted 0 ⟨[], 0⟩)).2 = .rejectedCooldown 60 := by
  decide

/-- One `rlApply` step keeps the timestamp list within the ceiling. -/
theorem rlApply_length_le (s : RLState) (op : RLOp)
    (h : s.callTimestamps.length ≤ 10) :
    (rlApply s op).callTimestamps.length ≤ 10 := by
  cases op with
  | exhaust now => simpa [rlApply, markQuotaExhausted] using h
  | attempt now =>
    simp only [rlApply, checkRateLimit]
    split
    · exact h
    · have hp := pruneOld_length_le (now - 60000) s.callTimestamps
      split
      · simpa using le_trans hp h
      · rename_i hroom
        simp only [MAX_CALLS_PER_MINUTE, Nat.not_le] at hroom
        simp only [List.length_append, List.length_singleton]
        omega

theorem rlRun_length_le (ops : List RLOp) : ∀ s : RLState,
    s.callTimestamps.length ≤ 10 → (rlRun ops s).callTimestamps.length ≤ 10 := by
  induction ops with
  | nil => intro s h; simpa [rlRun] using h
  | cons op ops ih =>
    intro s h
    simpa [rlRun, List.foldl_cons] using ih (rlApply s op) (rlApply_length_le s op h)

/-- Claim C9: starting from the empty timestamp list, after any sequence of
admission attempts (admitted or rejected) and `markQuotaExhausted` calls,
the call-timestamp list never holds more than 10 entries. -/
theorem callTimestamps_bounded_C9 (ops : List RLOp) :
    (rlRun ops ⟨[], 0⟩).callTimestamps.length ≤ 10 :=
  rlRun_length_le ops ⟨[], 0⟩ (by simp)

/-- Claim C10: whenever `checkRateLimit` rejects (either branch), no new
timestamp is appended — the resulting list is a suffix of the old one and
the deadline is untouched — and in the cooldown branch specifically the
whole state is returned completely unchanged (no pruning happens). -/
theorem rejected_no_append_C10 (now : Nat) (s : RLState)
    (h : (checkRateLimit now s).2 ≠ .admitted) :
    (checkRateLimit now s).1.callTimestamps <:+ s.callTimestamps
    ∧ (checkRateLimit now s).1.quotaExhaustedUntil = s.quotaExhaustedUntil
    ∧ (now < s.quotaExhaustedUntil → (checkRateLimit now s).1 = s) := by
  unfold checkRateLimit at h ⊢
  split
  · exact ⟨List.suffix_refl _, rfl, fun _ => rfl⟩
  · rename_i hcool
    split
    · exact ⟨pruneOld_suffix _ _, rfl, fun hc => absurd hc hcool⟩
    · rename_i hroom
      exfalso
      apply h
      rw [if_neg hcool]
      simp only [if_neg hroom]

/-- Claim C10 witness: a full window of ten timestamps at time 0 rejects a
new attempt at time 0, leaving timestamps (a suffix) and deadline intact. -/
theorem rejected_no_append_C10_witness :
    (checkRateLimit 0 ⟨List.replicate 10 0, 7⟩).1.callTimestamps <:+ List.replicate 10 0
    ∧ (checkRateLimit 0 ⟨List.replicate 10 0, 7⟩).1.quotaExhaustedUntil = 7
    ∧ ((0 : Nat) < 7 → (checkRateLimit 0 ⟨List.replicate 10 0, 7⟩).1 =
        ⟨List.replicate 10 0, 7⟩) :=
  rejected_no_append_C10 0 ⟨List.replicate 10 0, 7⟩ (by decide)

theorem dedupFirstAux_not_mem_seen (xs : List Int) : ∀ seen,
    ∀ x ∈ dedupFirstAux seen xs, x ∉ seen := by
  induction xs with
  | nil => intro seen x hx; simp [dedupFirstAux] at hx
  | cons y ys ih =>
    intro seen x hx
    simp only [dedupFirstAux] at hx
    split at hx
    · exact ih seen x hx
    · rcases List.mem_cons.mp hx with h | h
      · subst h; assumption
      · intro hxs
        exact ih (y :: seen) x h (by simp [hxs])

theorem dedupFirstAux_nodup (xs : List Int) : ∀ seen, (dedupFirstAux seen xs).Nodup := by
  induction xs with
  | nil => intro seen; simp [dedupFirstAux]
  | cons y ys ih =>
    intro seen
    simp only [dedupFirstAux]
    split
    · exact ih seen
    · refine List.nodup_cons.mpr ⟨?_, ih (y :: seen)⟩
      intro hy
      exact dedupFirstAux_not_mem_seen ys (y :: seen) y hy (by simp)

theorem dedupFirstAux_sublist (xs : List Int) : ∀ seen, List.Sublist (dedupFirstAux seen xs) xs := by
  induction xs with
  | nil => intro seen; simp [dedupFirstAux]
  | cons y ys ih =>
    intro seen
    simp only [dedupFirstAux]
    split
    · exact (ih seen).trans (List.sublist_cons_self y ys)
    · exact (ih (y :: seen)).cons₂ y

/-- Claim C4: every resolved source index lies in `[0, numItems)`; the
result has no duplicates; it is an order-preserving subsequence of the raw
1-based-to-0-based citation stream (duplicates collapsed to their first
occurrence); `"See [1] and [3] and [1] again"` over 3 items resolves to
`[0, 2]`; `[9]` over 3 items is discarded; and when every citation is out
of bounds the result is empty. -/
theorem citation_resolution_C4 :
    (∀ (text : String) (n : Nat), ∀ i ∈ sourceIndices text n, 0 ≤ i ∧ i < (n : Int))
    ∧ (∀ (text : String) (n : Nat), (sourceIndices text n).Nodup)
    ∧ (∀ (text : String) (n : Nat),
        List.Sublist (sourceIndices text n)
          ((scanCitations text.data none).map (fun k => (k : Int) - 1)))
    ∧ sourceIndices "See [1] and [3] and [1] again" 3 = [0, 2]
    ∧ sourceIndices "See [9]" 3 = []
    ∧ sourceIndices "See [9] and [0] and [47]" 3 = [] := by
  refine ⟨?_, ?_, ?_, by decide, by decide, by decide⟩
  · intro text n i hi
    have := List.of_mem_filter hi
    simpa using this
  · intro text n
    exact (dedupFirstAux_nodup _ []).filter _
  · intro text n
    exact (List.filter_sublist _).trans (dedupFirstAux_sublist _ [])

/-- Claim C4 witness: the bounds part applied to the resolved index 0 of
the first concrete example, plus that example's resolution. -/
theorem citation_resolution_C4_witness :
    ((0 : Int) ≤ 0 ∧ (0 : Int) < ((3 : Nat) : Int))
    ∧ sourceIndices "See [1] and [3] and [1] again" 3 = [0, 2] :=
  ⟨citation_resolution_C4.1 "See [1] and [3] and [1] again" 3 0 (by decide),
   citation_resolution_C4.2.2.2.1⟩

theorem extractTier3_error (t : String) (e : String)
    (h : extractTier3 t = .error e) : e = extractErr t := by
  unfold extractTier3 at h
  split at h
  · split at h
    · exact absurd h (by simp)
    · cases h; rfl
  · cases h; rfl

/-- Claim C5: the three-tier extractor parses a whitespace-padded object,
a fenced object, and a prose-wrapped object, all to the record with field
`a = 1`; on unparseable input it fails with the diagnostic error whose
excerpt of the offending text never exceeds 200 characters (shown for
every possible failure, and concretely for `"not json at all"`). -/
theorem structured_extractor_C5 :
    extractJSON "  \x7b\"a\":1\x7d  " = .ok (.obj [("a", .num "1")])
    ∧ extractJSON "```json\n\x7b\"a\":1\x7d\n```" = .ok (.obj [("a", .num "1")])
    ∧ extractJSON "here is the result: \x7b\"a\":1\x7d thanks" = .ok (.obj [("a", .num "1")])
    ∧ extractJSON "not json at all" = .error "Could not extract JSON from: not json at all"
    ∧ (∀ (t e : String), extractJSON t = .error e →
        e = "Could not extract JSON from: " ++ String.mk (t.data.take 200)
        ∧ (String.mk (t.data.take 200)).length ≤ 200) := by
  refine ⟨by rfl, by rfl, by rfl, by rfl, ?_⟩
  intro t e h
  have hlen : (String.mk (t.data.take 200)).length ≤ 200 := by
    show (t.data.take 200).length ≤ 200
    exact List.length_take_le 200 t.data
  refine ⟨?_, hlen⟩
  unfold extractJSON at h
  split at h
  · exact absurd h (by simp)
  · split at h
    · split at h
      · exact absurd h (by simp)
      · exact extractTier3_error t e h
    · exact extractTier3_error t e h

/-- Claim C5 witness: the general error-shape part applied to the concrete
failing input `"not json at all"`. -/
theorem structured_extractor_C5_witness :
    "Could not extract JSON from: not json at all"
      = "Could not extract JSON from: "
          ++ String.mk (("not json at all" : String).data.take 200)
    ∧ (String.mk (("not json at all" : String).data.take 200)).length ≤ 200 :=
  structured_extractor_C5.2.2.2.2 "not json at all"
    "Could not extract JSON from: not json at all" (by rfl)

/-! #### Heuristics lemmas -/


theorem char_ofNat_toNat (n : Nat) (h : n < 55296) : (Char.ofNat n).toNat = n := by
  unfold Char.ofNat
  split
  · rfl
  · rename_i hv
    exact absurd (Or.inl h) hv

theorem isJsWs_toNat_le (c : Char) (h : isJsWs c = true) : c.toNat ≤ 32 := by
  unfold isJsWs at h
  simp only [Bool.or_eq_true, decide_eq_true_eq] at h
  rcases h with ((((h | h) | h) | h) | h) | h <;> subst h <;> decide

theorem toLowerChar_facts (c : Char) (hw : isJsWs c = false) :
    isJsWs (toLowerChar c) = false
    ∧ ¬ (65 ≤ (toLowerChar c).toNat ∧ (toLowerChar c).toNat ≤ 90) := by
  unfold toLowerChar
  split
  · rename_i hup
    have ht : (Char.ofNat (c.toNat + 32)).toNat = c.toNat + 32 :=
      char_ofNat_toNat _ (by omega)
    constructor
    · cases hx : isJsWs (Char.ofNat (c.toNat + 32)) with
      | false => rfl
      | true => exact absurd (isJsWs_toNat_le _ hx) (by omega)
    · intro hx
      rw [ht] at hx
      omega
  · rename_i hup
    exact ⟨hw, hup⟩

theorem hyphenateAux_wellformed (l : List Char) : ∀ (b : Bool), ∀ c ∈ hyphenateAux b l,
    isJsWs c = false ∧ ¬ (65 ≤ c.toNat ∧ c.toNat ≤ 90) := by
  induction l with
  | nil => intro b c hc; simp [hyphenateAux] at hc
  | cons x rest ih =>
    intro b c hc
    simp only [hyphenateAux] at hc
    split at hc
    · split at hc
      · exact ih true c hc
      · rcases List.mem_cons.mp hc with h | h
        · subst h; exact ⟨by decide, by decide⟩
        · exact ih true c h
    · rename_i hxw
      rcases List.mem_cons.mp hc with h | h
      · subst h
        exact toLowerChar_facts x (by simpa using hxw)
      · exact ih false c h

theorem collectTags_mem (text : List Char) :
    ∀ (pats : List (String × List Pat)) (acc : List String),
    ∀ t ∈ collectTags text pats acc, t ∈ acc ∨ t ∈ pats.map Prod.fst := by
  intro pats
  induction pats with
  | nil => intro acc t ht; exact Or.inl ht
  | cons hd rest ih =>
    intro acc t ht
    obtain ⟨tag, ps⟩ := hd
    have hstep : ∀ u ∈ collectStep text tag ps acc, u ∈ acc ∨ u = tag := by
      intro u hu
      unfold collectStep at hu
      split at hu
      · rcases List.mem_append.mp hu with h | h
        · exact Or.inl h
        · exact Or.inr (by simpa using h)
      · exact Or.inl hu
    simp only [collectTags] at ht
    split at ht
    · rcases hstep t ht with h | h
      · exact Or.inl h
      · subst h
        exact Or.inr (by simp)
    · rcases ih (collectStep text tag ps acc) t ht with h | h
      · rcases hstep t h with h2 | h2
        · exact Or.inl h2
        · subst h2
          exact Or.inr (by simp)
      · refine Or.inr ?_
        simp only [List.map_cons]
        exact List.mem_cons_of_mem _ h

theorem collectTags_length (text : List Char) :
    ∀ (pats : List (String × List Pat)) (acc : List String),
    acc.length < 4 → (collectTags text pats acc).length ≤ 4 := by
  intro pats
  induction pats with
  | nil => intro acc h; simpa [collectTags] using Nat.le_of_lt h
  | cons hd rest ih =>
    intro acc h
    obtain ⟨tag, ps⟩ := hd
    have hlen : (collectStep text tag ps acc).length ≤ acc.length + 1 := by
      unfold collectStep
      split <;> simp
    simp only [collectTags]
    split
    · omega
    · rename_i hlt
      exact ih _ (by omega)

theorem inferTags_facts (title content : String) :
    (inferTagsFromContent title content).length ≤ 4
    ∧ ∀ t ∈ inferTagsFromContent title content,
        t ∈ tagPatterns.map Prod.fst ∨ t = "general" := by
  unfold inferTagsFromContent
  split
  · exact ⟨by simp, fun t ht => Or.inr (by simpa using ht)⟩
  · constructor
    · exact collectTags_length _ _ _ (by simp)
    · intro t ht
      rcases collectTags_mem _ _ _ t ht with h | h
      · simp at h
      · exact Or.inl h

theorem tagNames_wellformed :
    ∀ t ∈ ("general" :: tagPatterns.map Prod.fst),
      ∀ c ∈ t.data, isJsWs c = false ∧ ¬ (65 ≤ c.toNat ∧ c.toNat ≤ 90) := by decide

theorem inferCategory_mem (title content : String) :
    inferCategoryFromContent title content ∈ ALL_CATEGORIES := by
  unfold inferCategoryFromContent
  split
  · rename_i p hp
    have h1 : p ∈ categoryPatterns := List.mem_of_find?_eq_some hp
    have h2 : p.1 ∈ categoryPatterns.map Prod.fst := List.mem_map_of_mem Prod.fst h1
    have h3 : categoryPatterns.map Prod.fst = ALL_CATEGORIES := rfl
    rwa [h3] at h2
  · decide

theorem validateCategory_mem (title content : String) (pc : Option String) :
    validateCategory title content pc ∈ ALL_CATEGORIES := by
  unfold validateCategory
  split
  · split
    · exact inferCategory_mem title content
    · split
      · rename_i m hm
        exact List.mem_of_find?_eq_some hm
      · exact inferCategory_mem title content
  · exact inferCategory_mem title content

theorem validateTags_facts (title content : String) (pt : Option (List String)) :
    (validateTags title content pt).length ≤ 5
    ∧ ∀ t ∈ validateTags title content pt,
        ∀ c ∈ t.data, isJsWs c = false ∧ ¬ (65 ≤ c.toNat ∧ c.toNat ≤ 90) := by
  have hinfer : (inferTagsFromContent title content).length ≤ 5
      ∧ ∀ t ∈ inferTagsFromContent title content,
          ∀ c ∈ t.data, isJsWs c = false ∧ ¬ (65 ≤ c.toNat ∧ c.toNat ≤ 90) := by
    constructor
    · exact le_trans (inferTags_facts title content).1 (by omega)
    · intro t ht c hc
      rcases (inferTags_facts title content).2 t ht with h | h
      · exact tagNames_wellformed t (List.mem_cons_of_mem _ h) c hc
      · subst h
        exact tagNames_wellformed _ (by simp) c hc
  cases pt with
  | none => exact hinfer
  | some ts =>
    simp only [validateTags]
    split
    · exact hinfer
    · constructor
      · exact List.length_take_le 5 _
      · intro t ht c hc
        have h1 := List.mem_of_mem_take ht
        have h2 := (List.mem_filter.mp h1).1
        obtain ⟨x, hx, rfl⟩ := List.mem_map.mp h2
        exact hyphenateAux_wellformed x.data false c hc

theorem mem_dropWhile_of_neg (p : Char → Bool) (c : Char) (hw : p c = false) :
    ∀ l : List Char, c ∈ l → c ∈ l.dropWhile p := by
  intro l
  induction l with
  | nil => intro h; simp at h
  | cons x rest ih =>
    intro h
    rw [List.dropWhile_cons]
    split
    · rename_i hx
      rcases List.mem_cons.mp h with h1 | h1
      · subst h1
        rw [hw] at hx
        simp at hx
      · exact ih h1
    · exact h

theorem trimJs_ne_nil_of_mem (l : List Char) (c : Char) (hc : c ∈ l)
    (hw : isJsWs c = false) : trimJs l ≠ [] := by
  intro hnil
  have h1 : c ∈ l.dropWhile isJsWs := mem_dropWhile_of_neg _ c hw l hc
  have h2 : c ∈ (l.dropWhile isJsWs).reverse := List.mem_reverse.mpr h1
  have h3 : c ∈ (l.dropWhile isJsWs).reverse.dropWhile isJsWs :=
    mem_dropWhile_of_neg _ c hw _ h2
  have h4 : c ∈ ((l.dropWhile isJsWs).reverse.dropWhile isJsWs).reverse :=
    List.mem_reverse.mpr h3
  have : trimJs l = ((l.dropWhile isJsWs).reverse.dropWhile isJsWs).reverse := rfl
  rw [← this, hnil] at h4
  simp at h4

theorem mem_collapseNewlines (c : Char) (hc : c ≠ '\n') :
    ∀ (b : Bool) (l : List Char), c ∈ l → c ∈ collapseNewlinesAux b l := by
  intro b l
  induction l generalizing b with
  | nil => intro h; simp at h
  | cons x rest ih =>
    intro h
    simp only [collapseNewlinesAux]
    split
    · rename_i hx
      have h1 : c ∈ rest := by
        rcases List.mem_cons.mp h with h2 | h2
        · exact absurd (h2.trans hx) hc
        · exact h2
      split
      · exact ih true h1
      · exact List.mem_cons_of_mem _ (ih true h1)
    · rcases List.mem_cons.mp h with h2 | h2
      · subst h2
        exact List.mem_cons_self _ _
      · exact List.mem_cons_of_mem _ (ih false h2)

theorem clean_ne_nil (content : String) (c : Char) (hc : c ∈ content.data)
    (hw : isJsWs c = false) : trimJs (collapseNewlines content.data) ≠ [] := by
  have hnotnl : c ≠ '\n' := by
    intro h
    subst h
    simp [isJsWs] at hw
  exact trimJs_ne_nil_of_mem _ c (mem_collapseNewlines c hnotnl false _ hc) hw

theorem truncateSummary_pos (title content : String)
    (h : title ≠ "" ∨ ∃ c ∈ content.data, isJsWs c = false) :
    0 < (truncateSummary title content).length := by
  unfold truncateSummary
  split
  · rw [String.length_append]
    have h3 : ("..." : String).length = 3 := rfl
    omega
  · split
    · rename_i hemp
      rcases h with ht | ⟨c, hc, hw⟩
      · show 0 < title.data.length
        refine List.length_pos.mpr (fun hd => ht (String.ext hd))
      · exact absurd (by simpa using hemp) (clean_ne_nil content c hc hw)
    · rename_i h150 hemp
      show 0 < (trimJs (collapseNewlines content.data)).length
      exact List.length_pos.mpr (by simpa using hemp)

theorem buildOfflineSummaryV1_pos (title content : String)
    (h : title ≠ "" ∨ ∃ c ∈ content.data, isJsWs c = false) :
    0 < (buildOfflineSummaryV1 title content).length := by
  unfold buildOfflineSummaryV1
  split
  · split
    · rw [String.length_append]
      have h1 : ("." : String).length = 1 := rfl
      omega
    · split
      · rw [String.length_append]
        have h1 : ("." : String).length = 1 := rfl
        omega
      · exact truncateSummary_pos title content h
  · exact truncateSummary_pos title content h

theorem validateSummaryV1_pos (title content : String) (ps : Option String) :
    0 < (validateSummaryV1 title content ps).length := by
  unfold validateSummaryV1
  split
  · rw [String.length_append]
    have h3 : ("..." : String).length = 3 := rfl
    omega
  · rename_i hcond
    simp only [not_or] at hcond
    omega

/-- Claim C1 (amended): `generateAIMetadata` never throws and always
returns a fully populated record — tags of length at most 5 each free of
whitespace and of uppercase ASCII letters, a category in the Closed
Category Set — for every outcome of the model collaborator, including one
stubbed to always throw (the `failure` outcome), where all three fields
come from the offline heuristics; the summary is nonempty provided the
title is nonempty or the content holds a non-whitespace character (for
the completely empty input under a failing collaborator the offline
fallback returns the empty title — see the counterexample). -/
theorem metadata_total_C1 (title content : String) (outcome : ModelOutcome)
    (h : title ≠ "" ∨ ∃ c ∈ content.data, isJsWs c = false) :
    0 < (generateAIMetadata title content outcome).summary.length
    ∧ (generateAIMetadata title content outcome).tags.length ≤ 5
    ∧ (∀ t ∈ (generateAIMetadata title content outcome).tags,
        ∀ c ∈ t.data, isJsWs c = false ∧ ¬ (65 ≤ c.toNat ∧ c.toNat ≤ 90))
    ∧ (generateAIMetadata title content outcome).category ∈ ALL_CATEGORIES := by
  cases outcome with
  | failure =>
    refine ⟨buildOfflineSummaryV1_pos title content h, ?_, ?_,
      inferCategory_mem title content⟩
    · exact le_trans (inferTags_facts title content).1 (by omega)
    · intro t ht c hc
      rcases (inferTags_facts title content).2 t ht with h2 | h2
      · exact tagNames_wellformed t (List.mem_cons_of_mem _ h2) c hc
      · subst h2
        exact tagNames_wellformed _ (by simp) c hc
  | success parsed =>
    exact ⟨validateSummaryV1_pos title content parsed.summary,
      (validateTags_facts title content parsed.tags).1,
      (validateTags_facts title content parsed.tags).2,
      validateCategory_mem title content parsed.category⟩

/-- Claim C1 counterexample: with an empty title, empty content and a
failing model collaborator, the offline fallback summary is the empty
string, so the summary-length clause of the claim fails. -/
theorem metadata_total_C1_counterexample :
    ¬ 0 < (generateAIMetadata "" "" ModelOutcome.failure).summary.length := by decide

/-- Claim C1 witness: nonempty title, empty content, failing collaborator. -/
theorem metadata_total_C1_witness :
    0 < (generateAIMetadata "Note" "" ModelOutcome.failure).summary.length
    ∧ (generateAIMetadata "Note" "" ModelOutcome.failure).category ∈ ALL_CATEGORIES :=
  ⟨(metadata_total_C1 "Note" "" .failure (Or.inl (by decide))).1,
   (metadata_total_C1 "Note" "" .failure (Or.inl (by decide))).2.2.2⟩

/-! #### Claims C6 and C7 -/


theorem scoreSentence_eq_claim (sentences tws : List (List Char)) (s : List Char) :
    scoreSentence sentences tws s = claimScoreAt sentences tws (sentences.indexOf s) s :=
  rfl

/-- Claim C6 (amended): on any content with at least one candidate
sentence, the scored offline summariser equals the claim's description —
+3 for an importance keyword, +1 per title word longer than 3 characters
contained, +1 when not first, +1 when in the latter half, +1 when longer
than 60 characters, stable descending sort, top two joined with `". "`
and a trailing period — with the positional bonuses determined by the
index of the sentence's FIRST occurrence in the candidate list (the
source computes the position with `indexOf`), not its own position. -/
theorem offline_summary_C6 (title content : String)
    (h : candidateSentences content ≠ []) :
    buildOfflineSummary title content = specSummaryFirstOcc title content := by
  unfold buildOfflineSummary
  rw [if_neg (by simpa using h)]
  rfl

/-- Claim C6 counterexample: on content whose candidate list is
`[A, B, A]` (a duplicated sentence), scoring each candidate at its own
position (as the claim states) yields a different summary from the
source, which scores duplicates at their first occurrence. -/
theorem offline_summary_C6_counterexample :
    buildOfflineSummary "x" sampleScoredContent
      ≠ specSummaryPositional "x" sampleScoredContent := by decide

/-- Claim C6 witness: the amended equality evaluated on the duplicated
candidate list. -/
theorem offline_summary_C6_witness :
    buildOfflineSummary "x" sampleScoredContent
      = specSummaryFirstOcc "x" sampleScoredContent :=
  offline_summary_C6 "x" sampleScoredContent (by decide)

/-- Claim C7: in the later pipeline revision, when the model call and
extraction succeed, an extracted summary shorter than 10 characters
(including an absent one, read as `""`) is replaced by the Heuristics
Engine summary for the same title and content, and a summary of length at
least 10 is returned unchanged. -/
theorem summary_backstop_C7 (title content : String) (parsed : ParsedMeta) :
    ((parsed.summary.getD "").length < 10 →
      (generateAIMetadataV2 title content (.success parsed)).summary
        = buildOfflineSummary title content)
    ∧ (10 ≤ (parsed.summary.getD "").length →
      (generateAIMetadataV2 title content (.success parsed)).summary
        = parsed.summary.getD "") := by
  constructor
  · intro hlt
    show (if (parsed.summary.getD "").length < 10 then buildOfflineSummary title content
      else parsed.summary.getD "") = buildOfflineSummary title content
    rw [if_pos hlt]
  · intro hge
    show (if (parsed.summary.getD "").length < 10 then buildOfflineSummary title content
      else parsed.summary.getD "") = parsed.summary.getD ""
    rw [if_neg (Nat.not_lt.mpr hge)]

/-- Claim C7 witness: a five-character extracted summary is replaced by
the heuristic summary. -/
theorem summary_backstop_C7_witness :
    (generateAIMetadataV2 "t" "c" (.success ⟨some "short", none, none⟩)).summary
      = buildOfflineSummary "t" "c" :=
  (summary_backstop_C7 "t" "c" ⟨some "short", none, none⟩).1 (by decide)

/-- Claim C8: the query-engine context is determined by the first 25 items
alone (items beyond the 25th never influence it); it is exactly the
newline-join of one entry per included item; and each entry is
`[index+1] "title" (type): ` followed by at most 200 characters of the
item's content-or-summary. -/
theorem query_context_C8 :
    (∀ items₁ items₂ : List BrainItem, items₁.take 25 = items₂.take 25 →
      buildContext items₁ = buildContext items₂)
    ∧ (∀ items : List BrainItem, buildContext items = buildContext (items.take 25))
    ∧ (∀ items : List BrainItem,
        buildContext items
          = String.intercalate "\n" ((items.take 25).enum.map (fun p => contextLine p.1 p.2)))
    ∧ (∀ (i : Nat) (it : BrainItem),
        contextLine i it
          = "[" ++ toString (i + 1) ++ "] \"" ++ it.title ++ "\" (" ++ it.type ++ "): "
              ++ String.mk ((itemBody it).data.take 200)
        ∧ ((itemBody it).data.take 200).length ≤ 200) := by
  refine ⟨?_, ?_, fun items => rfl, fun i it => ⟨rfl, List.length_take_le 200 _⟩⟩
  · intro a b h
    unfold buildContext
    rw [h]
  · intro items
    unfold buildContext
    rw [List.take_take]
    simp

/-- Claim C8 witness: a 26-item list builds the same context as its first
25 items. -/
theorem query_context_C8_witness :
    buildContext (List.replicate 26 sampleItem)
      = buildContext (List.replicate 25 sampleItem) :=
  query_context_C8.1 (List.replicate 26 sampleItem) (List.replicate 25 sampleItem)
    (by decide)

end SecondBrain
